import Mathlib

/-!
# Verification of the scheduling / time slice of `rbxts-prim`

Shallow embedding of the interval/timeout/debounce/throttle scheduling
primitives (`src/scheduler/interval.ts`, `src/scheduler/rate-limit.ts`),
the time-unit helpers (`src/time/unit.ts` and the variant that defines
`disect`), and the benchmark registry (`start`/`stop` by id).

Numbers of the host language are modelled as exact rationals (`ℚ`);
timestamps and durations are rationals in seconds unless noted.
The host's cooperative task runtime is modelled as explicit state
machines: each suspension point of a spawned task is a state, and the
environment (the caller invoking `destroy`, `setTimeout`, …) may step
between suspension points.  Lua/JS truthiness of `number | undefined`
values (where `undefined`, `0` and `NaN` are falsy) is embedded for
`Option ℚ` values as "`none` or `some 0`"; `NaN` is not representable
in `ℚ` and does not arise from the modelled operations.
-/

namespace Prim

/-- `TimeUnit` record from `src/time/unit.ts`. -/
structure TimeUnit where
  seconds : ℚ
  name : String
  symbol : String
deriving DecidableEq, Repr

namespace Unit

/-- `Unit.MILLI` from `src/time/unit.ts`. -/
def MILLI : TimeUnit := { seconds := 1/1000, name := "millisecond", symbol := "ms" }

/-- `Unit.SECOND` from `src/time/unit.ts`. -/
def SECOND : TimeUnit := { seconds := 1, name := "second", symbol := "s" }

/-- `Unit.MINUTE` from `src/time/unit.ts`. -/
def MINUTE : TimeUnit := { seconds := 60, name := "minute", symbol := "min" }

/-- `Unit.HOUR` from `src/time/unit.ts`. -/
def HOUR : TimeUnit := { seconds := 3600, name := "hour", symbol := "h" }

end Unit

/-- `convert(value, from, to) = value * from.seconds / to.seconds`
(`src/time/unit.ts`). -/
def convert (value : ℚ) (src dst : TimeUnit) : ℚ :=
  value * src.seconds / dst.seconds

/-- `interval.ts` line 64: `const sToMs = (ms) => Time.convert(ms, MILLI, SECOND)`.
NOTE: despite its name, the body converts milliseconds to seconds. -/
def sToMs (ms : ℚ) : ℚ := convert ms Unit.MILLI Unit.SECOND

/-- `interval.ts` line 65: `const msToS = (s) => Time.convert(s, SECOND, MILLI)`.
NOTE: despite its name, the body converts seconds to milliseconds. -/
def msToS (s : ℚ) : ℚ := convert s Unit.SECOND Unit.MILLI

theorem sToMs_eq (ms : ℚ) : sToMs ms = ms / 1000 := by
  unfold sToMs convert Unit.MILLI Unit.SECOND
  ring

theorem msToS_eq (s : ℚ) : msToS s = 1000 * s := by
  unfold msToS convert Unit.SECOND Unit.MILLI
  simp
  ring

/-! ## Timeout (`setTimeout`, `interval.ts` lines 138–175)

The spawned task body is
`start = now; task.wait(timeout); start = undefined; if (destroyed) return;
executed = true; cb(...)`.
The only suspension point is `task.wait`, so the task consists of two
atomic blocks: the creation block (record `start`, issue the wait) and
the wake block (everything after the wait).  Between them — and after
them — the environment may call `destroy()` any number of times. -/

/-- Phase of a timeout's spawned task: still inside `task.wait`, or the
post-wait block has run. -/
inductive TPhase where
  | waiting
  | finished
deriving DecidableEq, Repr

/-- The mutable state captured by a `setTimeout` closure, plus the task
phase and a count of callback invocations. -/
structure TimeoutState where
  /-- `const timeout = msToS(timeoutMs)` (line 143), in the clock's unit
  (seconds) as handed to `task.wait`. -/
  timeout : ℚ
  start : Option ℚ
  destroyed : Bool
  executed : Bool
  phase : TPhase
  /-- Number of times `cb(...args)` has been invoked. -/
  cbRuns : ℕ
deriving DecidableEq, Repr

namespace TimeoutState

/-- State directly after `setTimeout(cb, timeoutMs)` runs its creation
block at clock time `now`: `start = Time.now()` recorded, wait issued. -/
def create (timeoutMs now : ℚ) : TimeoutState :=
  { timeout := msToS timeoutMs
    start := some now
    destroyed := false
    executed := false
    phase := .waiting
    cbRuns := 0 }

/-- `destroy: () => void (destroyed = true)` (line 172). -/
def destroy (s : TimeoutState) : TimeoutState := { s with destroyed := true }

/-- The wake block (lines 152–157): `start = undefined; if (destroyed)
return; executed = true; cb(...)`. -/
def wake (s : TimeoutState) : TimeoutState :=
  let s1 : TimeoutState := { s with start := none, phase := .finished }
  if s1.destroyed then s1
  else { s1 with executed := true, cbRuns := s1.cbRuns + 1 }

/-- One step of the timeout's lifecycle: either the environment calls
`destroy()`, or the suspension elapses and the wake block runs (once). -/
inductive Step : TimeoutState → TimeoutState → Prop where
  | destroy (s : TimeoutState) : Step s s.destroy
  | wake (s : TimeoutState) : s.phase = .waiting → Step s s.wake

/-- Reachability along timeout lifecycle steps. -/
def Reaches (s s' : TimeoutState) : Prop := Relation.ReflTransGen Step s s'

theorem timeout_destroyed_mono {s s' : TimeoutState} (h : Step s s')
    (hd : s.destroyed = true) : s'.destroyed = true := by
  cases h with
  | destroy => rfl
  | wake hw => simp [wake, hd]

theorem timeout_step_frozen {s s' : TimeoutState} (h : Step s s')
    (hd : s.destroyed = true) :
    s'.executed = s.executed ∧ s'.cbRuns = s.cbRuns := by
  cases h with
  | destroy => exact ⟨rfl, rfl⟩
  | wake hw => simp [wake, hd]

theorem timeout_reaches_frozen {s s' : TimeoutState} (h : Reaches s s')
    (hd : s.destroyed = true) :
    s'.executed = s.executed ∧ s'.cbRuns = s.cbRuns := by
  induction h with
  | refl => exact ⟨rfl, rfl⟩
  | tail _ hstep ih =>
    rename_i b c _
    have hb : b.destroyed = true := by
      clear hstep ih
      rename_i hreach
      induction hreach with
      | refl => exact hd
      | tail _ hstep ih => exact timeout_destroyed_mono hstep ih
    obtain ⟨h1, h2⟩ := ih
    obtain ⟨h1', h2'⟩ := timeout_step_frozen hstep hb
    exact ⟨h1'.trans h1, h2'.trans h2⟩

end TimeoutState

/-- The number of seconds `setTimeout(cb, timeoutMs)` hands to the
clock's suspend primitive: `task.wait(timeout)` with
`timeout = msToS(timeoutMs)` (lines 143, 151). -/
def setTimeoutSuspendSeconds (timeoutMs : ℚ) : ℚ := msToS timeoutMs

end Prim

namespace Prim

/-- Claim C1.  The lifecycle part of the claim holds: creation records the
start timestamp and the wake block clears it, then — exactly when `destroyed`
is not set — sets `executed` and invokes the callback once.  But the
suspension duration handed to the clock is **not** `delayMs / 1000` seconds:
`setTimeout` computes `msToS(timeoutMs)`, whose body multiplies by 1000
(the two helper lambdas on lines 64–65 of `interval.ts` have swapped
bodies), so for `delayMs = 1000` the clock is told to suspend for
1 000 000 seconds where the claim (and the function's own doc) requires
1 second. -/
theorem C1_setTimeout_lifecycle_and_suspension :
    (∀ tm now : ℚ, (TimeoutState.create tm now).start = some now ∧
      (TimeoutState.create tm now).executed = false ∧
      (TimeoutState.create tm now).cbRuns = 0) ∧
    (∀ s : TimeoutState,
      s.wake = cond s.destroyed
        { s with start := none, phase := .finished }
        { s with start := none, phase := .finished,
                 executed := true, cbRuns := s.cbRuns + 1 }) ∧
    setTimeoutSuspendSeconds 1000 = 1000000 ∧
    (1000 : ℚ) / 1000 = 1 := by
  refine ⟨fun tm now => ⟨rfl, rfl, rfl⟩, fun s => ?_, ?_, by norm_num⟩
  · unfold TimeoutState.wake
    cases hs : s.destroyed <;> simp [hs]
  · unfold setTimeoutSuspendSeconds
    rw [msToS_eq]
    norm_num

/-- Claim C3 (counterexample).  The state in which `executed` and
`destroyed` are both `true` **is** reachable in a single timeout's
lifecycle: let the timeout elapse normally (wake with `destroyed = false`
sets `executed = true` and runs the callback), then call `destroy()`,
which still sets `destroyed = true`. -/
theorem C3_executed_and_destroyed_reachable :
    TimeoutState.Reaches (TimeoutState.create 5 0)
      ((TimeoutState.create 5 0).wake.destroy) ∧
    ((TimeoutState.create 5 0).wake.destroy).executed = true ∧
    ((TimeoutState.create 5 0).wake.destroy).destroyed = true := by
  refine ⟨?_, rfl, rfl⟩
  exact Relation.ReflTransGen.tail
    (Relation.ReflTransGen.single (TimeoutState.Step.wake _ rfl))
    (TimeoutState.Step.destroy _)

/-- Claim C3 (amended).  Once `destroyed` is set, `executed` and the number
of callback invocations never change along any further lifecycle steps:
destroying before the wake keeps `executed` false forever (the callback
never runs), and destroying after the callback has run does not undo or
repeat the execution.  (The original claim's "executed and destroyed are
never both true" fails, because `destroy()` after execution still sets the
`destroyed` flag — see the counterexample.) -/
theorem C3_destroy_freezes_execution (s s' : TimeoutState)
    (h : TimeoutState.Reaches s s') (hd : s.destroyed = true) :
    s'.executed = s.executed ∧ s'.cbRuns = s.cbRuns :=
  TimeoutState.timeout_reaches_frozen h hd

/-- Witness for C3 (amended): a destroyed-before-wake timeout steps through
its wake without executing. -/
theorem C3_destroy_freezes_execution_witness :
    ((TimeoutState.create 5 0).destroy.wake).executed
        = ((TimeoutState.create 5 0).destroy).executed ∧
    ((TimeoutState.create 5 0).destroy.wake).cbRuns
        = ((TimeoutState.create 5 0).destroy).cbRuns :=
  C3_destroy_freezes_execution _ _
    (Relation.ReflTransGen.single (TimeoutState.Step.wake _ rfl)) rfl

/-! ## Interval (`setInterval`, `interval.ts` lines 75–111)

The spawned loop body is
`while (!destroyed) { latest = {timeout, start: now}; task.wait(timeout);
latest = undefined; if (destroyed) break; cb(...); }`.
The only suspension point is `task.wait`; the loop-head check together
with recording `latest` and issuing the wait is one atomic block
(`enterCycle`), and everything from waking up to (possibly) invoking the
callback and re-reaching the loop head is another (`wake`).  Between the
blocks the environment may call `destroy()` or `setTimeout(ms)`. -/

/-- Phase of the interval's spawned loop. -/
inductive IPhase where
  /-- control is at the `while (!destroyed)` loop head. -/
  | atTop
  /-- control is inside `task.wait(timeout)`. -/
  | waiting
  /-- loop has exited. -/
  | done
deriving DecidableEq, Repr

/-- The mutable state captured by a `setInterval` closure, plus the loop
phase and a count of callback invocations. -/
structure IntervalState where
  /-- `let timeout = sToMs(timeoutMs)` (line 80), in seconds. -/
  timeout : ℚ
  destroyed : Bool
  /-- `latest = { timeout, start }` — snapshot of the period and start
  timestamp of the wait currently in flight (line 86), or `none`. -/
  latest : Option (ℚ × ℚ)
  phase : IPhase
  /-- Number of times `cb(...args)` has been invoked. -/
  cbRuns : ℕ
deriving DecidableEq, Repr

namespace IntervalState

/-- State directly after `setInterval(cb, timeoutMs)` spawns the loop. -/
def create (timeoutMs : ℚ) : IntervalState :=
  { timeout := sToMs timeoutMs
    destroyed := false
    latest := none
    phase := .atTop
    cbRuns := 0 }

/-- `destroy: () => void (destroyed = true)` (line 108). -/
def destroy (s : IntervalState) : IntervalState := { s with destroyed := true }

/-- `setTimeout: (ms) => void (timeout = sToMs(ms))` (line 107) — the
spec's `setPeriod`.  It writes the `timeout` variable only; the snapshot
in `latest` and the wait already handed to the clock are untouched. -/
def setTimeoutMs (s : IntervalState) (ms : ℚ) : IntervalState :=
  { s with timeout := sToMs ms }

/-- Loop-head block (lines 85–87) when `destroyed` is false: record
`latest = { timeout, start: Time.now() }` and issue `task.wait(timeout)`
with the **current** value of the `timeout` variable. -/
def enterCycle (s : IntervalState) (now : ℚ) : IntervalState :=
  { s with latest := some (s.timeout, now), phase := .waiting }

/-- Loop-head check (line 85) when `destroyed` is true: exit the loop. -/
def exitLoop (s : IntervalState) : IntervalState := { s with phase := .done }

/-- Wake block (lines 88–91): `latest = undefined; if (destroyed) break;
cb(...)` and back to the loop head. -/
def wake (s : IntervalState) : IntervalState :=
  if s.destroyed then { s with latest := none, phase := .done }
  else { s with latest := none, phase := .atTop, cbRuns := s.cbRuns + 1 }

/-- One step of the interval's lifecycle: an environment call (`destroy`
or `setTimeout`) or a process block running at its phase. -/
inductive Step : IntervalState → IntervalState → Prop where
  | destroy (s : IntervalState) : Step s s.destroy
  | setT (s : IntervalState) (ms : ℚ) : Step s (s.setTimeoutMs ms)
  | enter (s : IntervalState) (now : ℚ) :
      s.phase = .atTop → s.destroyed = false → Step s (s.enterCycle now)
  | exit (s : IntervalState) :
      s.phase = .atTop → s.destroyed = true → Step s s.exitLoop
  | wake (s : IntervalState) : s.phase = .waiting → Step s s.wake

/-- Environment-only steps: what other tasks can do while the loop is
suspended inside `task.wait`. -/
inductive EnvStep : IntervalState → IntervalState → Prop where
  | destroy (s : IntervalState) : EnvStep s s.destroy
  | setT (s : IntervalState) (ms : ℚ) : EnvStep s (s.setTimeoutMs ms)

/-- Reachability along interval lifecycle steps. -/
def Reaches (s s' : IntervalState) : Prop := Relation.ReflTransGen Step s s'

/-- Reachability along environment-only steps. -/
def EnvReaches (s s' : IntervalState) : Prop := Relation.ReflTransGen EnvStep s s'

theorem interval_destroyed_mono {s s' : IntervalState} (h : Step s s')
    (hd : s.destroyed = true) : s'.destroyed = true := by
  cases h with
  | destroy => rfl
  | setT ms => exact hd
  | enter now htop hlive => rw [hd] at hlive; cases hlive
  | exit htop hdes => exact hd
  | wake hw => simp [wake, hd]

theorem interval_step_frozen {s s' : IntervalState} (h : Step s s')
    (hd : s.destroyed = true) : s'.cbRuns = s.cbRuns := by
  cases h with
  | destroy => rfl
  | setT ms => rfl
  | enter now htop hlive => rw [hd] at hlive; cases hlive
  | exit htop hdes => rfl
  | wake hw => simp [wake, hd]

theorem interval_reaches_frozen {s s' : IntervalState} (h : Reaches s s')
    (hd : s.destroyed = true) : s'.cbRuns = s.cbRuns := by
  induction h with
  | refl => rfl
  | tail _ hstep ih =>
    rename_i b c hreach
    have hb : b.destroyed = true := by
      clear hstep ih
      induction hreach with
      | refl => exact hd
      | tail _ hstep ih => exact interval_destroyed_mono hstep ih
    exact (interval_step_frozen hstep hb).trans ih

theorem envStep_keeps {s s' : IntervalState} (h : EnvStep s s') :
    s'.latest = s.latest ∧ s'.phase = s.phase ∧ s'.cbRuns = s.cbRuns := by
  cases h with
  | destroy => exact ⟨rfl, rfl, rfl⟩
  | setT ms => exact ⟨rfl, rfl, rfl⟩

theorem envReaches_keeps {s s' : IntervalState} (h : EnvReaches s s') :
    s'.latest = s.latest ∧ s'.phase = s.phase ∧ s'.cbRuns = s.cbRuns := by
  induction h with
  | refl => exact ⟨rfl, rfl, rfl⟩
  | tail _ hstep ih =>
    obtain ⟨h1, h2, h3⟩ := ih
    obtain ⟨h1', h2', h3'⟩ := envStep_keeps hstep
    exact ⟨h1'.trans h1, h2'.trans h2, h3'.trans h3⟩

end IntervalState

/-- Claim C5.  Once `destroy()` has set the `destroyed` flag, no further
callback invocations occur along any continuation of the interval's
lifecycle — including the invocation that was about to fire when
destruction happened mid-suspension (the wake block re-checks `destroyed`
before invoking) — and if the flag was set while the invocation count was
still zero (in particular, before the first suspension completed), the
count stays zero forever. -/
theorem C5_interval_destroy_stops_invocations (s s' : IntervalState)
    (h : IntervalState.Reaches s s') (hd : s.destroyed = true) :
    s'.cbRuns = s.cbRuns ∧ (s.cbRuns = 0 → s'.cbRuns = 0) := by
  have := IntervalState.interval_reaches_frozen h hd
  exact ⟨this, fun h0 => this.trans h0⟩

/-- Witness for C5: an interval of period 100 ms destroyed before its
first suspension completes (here: destroyed at the loop head, wait in
flight, then woken) performs zero invocations. -/
theorem C5_interval_destroy_stops_invocations_witness :
    ((((IntervalState.create 100).enterCycle 0).destroy.wake).cbRuns
        = (((IntervalState.create 100).enterCycle 0).destroy).cbRuns) ∧
    ((((IntervalState.create 100).enterCycle 0).destroy).cbRuns = 0 →
      ((((IntervalState.create 100).enterCycle 0).destroy.wake).cbRuns = 0)) :=
  C5_interval_destroy_stops_invocations _ _
    (Relation.ReflTransGen.single (IntervalState.Step.wake _ rfl)) rfl

/-- Claim C6.  While a cycle is in flight (the loop is suspended in
`task.wait`), any sequence of environment calls — in particular
`setTimeout`/`setPeriod` — leaves the in-flight cycle's recorded snapshot
`latest` (its period and start timestamp) and the suspension itself
unchanged; the value written by `setTimeout` only lands in the `timeout`
variable, which is read the next time a cycle starts
(`enterCycle` snapshots the then-current `timeout`). -/
theorem C6_setPeriod_mid_cycle (s s' : IntervalState)
    (h : IntervalState.EnvReaches s s') (hw : s.phase = .waiting) :
    s'.latest = s.latest ∧ s'.phase = .waiting ∧
    (∀ now : ℚ, (s'.enterCycle now).latest = some (s'.timeout, now)) ∧
    (∀ ms : ℚ, (s.setTimeoutMs ms).timeout = sToMs ms ∧
      (s.setTimeoutMs ms).latest = s.latest) := by
  obtain ⟨h1, h2, h3⟩ := IntervalState.envReaches_keeps h
  exact ⟨h1, h2.trans hw, fun now => rfl, fun ms => ⟨rfl, rfl⟩⟩

/-- Witness for C6: an interval of period 100 ms, mid-wait, receiving
`setTimeout 10`; the in-flight snapshot is unchanged. -/
theorem C6_setPeriod_mid_cycle_witness :
    ((((IntervalState.create 100).enterCycle 0).setTimeoutMs 10).latest
        = ((IntervalState.create 100).enterCycle 0).latest) ∧
    ((((IntervalState.create 100).enterCycle 0).setTimeoutMs 10).phase
        = IPhase.waiting) ∧
    (∀ now : ℚ,
      (((((IntervalState.create 100).enterCycle 0).setTimeoutMs 10).enterCycle now).latest
        = some (((((IntervalState.create 100).enterCycle 0).setTimeoutMs 10)).timeout, now))) ∧
    (∀ ms : ℚ,
      ((((IntervalState.create 100).enterCycle 0).setTimeoutMs ms).timeout = sToMs ms) ∧
      ((((IntervalState.create 100).enterCycle 0).setTimeoutMs ms).latest
        = (((IntervalState.create 100).enterCycle 0)).latest)) :=
  C6_setPeriod_mid_cycle _ _
    (Relation.ReflTransGen.single (IntervalState.EnvStep.setT _ 10)) rfl

/-! ## Throttle (`rate-limit.ts` lines 4–135)

Pure state, no background task.  `Time.now()` is passed explicitly as
`now`; `Time.diff(start, fin) = fin - start`. -/

/-- The private fields of class `Throttle`. -/
structure ThrottleState where
  timeoutSeconds : ℚ
  lastPass : Option ℚ
  locked : Bool
deriving DecidableEq, Repr

namespace ThrottleState

/-- `setTimeout(timeoutMs)`: `timeoutSeconds = convert(timeoutMs, MILLI, SECOND)`
(lines 132–134) — the spec's `setWindow`. -/
def setTimeout (s : ThrottleState) (timeoutMs : ℚ) : ThrottleState :=
  { s with timeoutSeconds := convert timeoutMs Unit.MILLI Unit.SECOND }

/-- `new Throttle(timeoutMs)`: the constructor only calls `setTimeout`
(lines 15–17); `lastPass` starts unset, `locked` starts false. -/
def create (timeoutMs : ℚ) : ThrottleState :=
  setTimeout { timeoutSeconds := 0, lastPass := none, locked := false } timeoutMs

/-- `getTimeout()`: `convert(timeoutSeconds, SECOND, MINUTE)` (lines
124–126) — the spec's `getWindow`.  Note the conversion target. -/
def getTimeout (s : ThrottleState) : ℚ :=
  convert s.timeoutSeconds Unit.SECOND Unit.MINUTE

/-- `getRemainingTimeout()` (lines 69–73): `if (!this.lastPass) return 0`
— a JS-truthiness test, so a recorded `lastPass` of `0` is treated like
"never passed" — else `max(0, timeoutSeconds - (now - lastPass))`. -/
def getRemainingTimeout (s : ThrottleState) (now : ℚ) : ℚ :=
  match s.lastPass with
  | none => 0
  | some t => if t = 0 then 0 else max 0 (s.timeoutSeconds - (now - t))

/-- `canPass()` (lines 43–48): locked throttles never pass; otherwise the
remaining timeout must be exactly 0. -/
def canPass (s : ThrottleState) (now : ℚ) : Bool :=
  if s.locked then false else decide (getRemainingTimeout s now = 0)

/-- `tryPass()` (lines 58–63): returns the pass verdict and the state
after the call (`lastPass = Time.now()` recorded on success only). -/
def tryPass (s : ThrottleState) (now : ℚ) : Bool × ThrottleState :=
  if canPass s now then (true, { s with lastPass := some now })
  else (false, s)

/-- `lock()` (lines 94–96). -/
def lock (s : ThrottleState) : ThrottleState := { s with locked := true }

/-- `unlock()` (lines 101–103). -/
def unlock (s : ThrottleState) : ThrottleState := { s with locked := false }

/-- `resetLastPass()` (lines 87–89). -/
def resetLastPass (s : ThrottleState) : ThrottleState := { s with lastPass := none }

theorem tryPass_fst (s : ThrottleState) (now : ℚ) :
    (s.tryPass now).1 = s.canPass now := by
  unfold tryPass
  by_cases hc : s.canPass now = true
  · simp [hc]
  · simp only [Bool.not_eq_true] at hc
    simp [hc]

theorem tryPass_snd (s : ThrottleState) (now : ℚ) :
    (s.tryPass now).2 =
      if s.canPass now then { s with lastPass := some now } else s := by
  unfold tryPass
  by_cases hc : s.canPass now = true
  · simp [hc]
  · simp only [Bool.not_eq_true] at hc
    simp [hc]

/-- Exact characterisation of `canPass`, including the truthiness quirk:
a `lastPass` of exactly `0` behaves like an unset `lastPass`. -/
theorem canPass_iff (s : ThrottleState) (now : ℚ) :
    s.canPass now = true ↔
      (s.locked = false ∧ (s.lastPass = none ∨ s.lastPass = some 0 ∨
        ∃ t : ℚ, s.lastPass = some t ∧ s.timeoutSeconds ≤ now - t)) := by
  cases hl : s.locked with
  | true => simp [canPass, hl]
  | false =>
    cases hp : s.lastPass with
    | none => simp [canPass, getRemainingTimeout, hl, hp]
    | some t =>
      by_cases ht : t = 0
      · subst ht
        simp [canPass, getRemainingTimeout, hl, hp]
      · rw [show s.canPass now = decide (s.getRemainingTimeout now = 0) by
          simp [canPass, hl]]
        rw [show s.getRemainingTimeout now
            = max 0 (s.timeoutSeconds - (now - t)) by
          simp [getRemainingTimeout, hp, ht]]
        simp only [decide_eq_true_eq, hp, hl]
        constructor
        · intro h0
          refine ⟨by trivial, Or.inr (Or.inr ⟨t, rfl, ?_⟩)⟩
          by_contra hlt
          push_neg at hlt
          have hpos : (0:ℚ) < s.timeoutSeconds - (now - t) := by linarith
          rw [max_eq_right hpos.le] at h0
          linarith
        · rintro ⟨-, (hc | hc | ⟨t', ht', hle⟩)⟩
          · cases hc
          · exact absurd (Option.some_injective ℚ hc) ht
          · obtain rfl : t = t' := Option.some_injective ℚ ht'
            exact max_eq_left (by linarith)

end ThrottleState

/-- Claim C2.  `getTimeout` does **not** round-trip the milliseconds given
to `setTimeout`: it converts the stored seconds to **minutes**
(`convert(timeoutSeconds, SECOND, MINUTE)`), not to milliseconds, so after
`setTimeout w` it returns `w / 60000` — for `w = 60000` ms it returns `1`
although the claim (and the method's own doc, "the current timeout (in
milliseconds)") requires `60000`. -/
theorem C2_throttle_getTimeout_unit :
    (∀ s : ThrottleState, ∀ w : ℚ,
      ((s.setTimeout w).getTimeout) = w / 60000) ∧
    (((ThrottleState.create 0).setTimeout 60000).getTimeout = 1) ∧
    ((1 : ℚ) ≠ 60000) := by
  have key : ∀ s : ThrottleState, ∀ w : ℚ,
      ((s.setTimeout w).getTimeout) = w / 60000 := by
    intro s w
    unfold ThrottleState.setTimeout ThrottleState.getTimeout convert
      Unit.MILLI Unit.SECOND Unit.MINUTE
    norm_num
    ring
  refine ⟨key, ?_, by norm_num⟩
  rw [key]
  norm_num

/-- Claim C7 (counterexample).  The stated iff fails at the throttle state
`{ timeoutSeconds := 10, lastPass := some 0, locked := false }` with
current time `0`: `lastPass` is set and only `0` seconds have elapsed —
far less than the 10-second window — yet `tryPass` returns `true`,
because the implementation's `if (!this.lastPass)` truthiness test treats
the timestamp `0` as "never passed". -/
theorem C7_tryPass_iff_fails_at_zero_timestamp :
    ¬ (((ThrottleState.tryPass
          { timeoutSeconds := 10, lastPass := some 0, locked := false } 0).1 = true) ↔
        (({ timeoutSeconds := 10, lastPass := some 0, locked := false } : ThrottleState).locked = false ∧
          (({ timeoutSeconds := 10, lastPass := some 0, locked := false } : ThrottleState).lastPass = none ∨
            ∃ t : ℚ, ({ timeoutSeconds := 10, lastPass := some 0, locked := false } : ThrottleState).lastPass = some t ∧
              ({ timeoutSeconds := 10, lastPass := some 0, locked := false } : ThrottleState).timeoutSeconds ≤ 0 - t))) := by
  rw [ThrottleState.tryPass_fst, ThrottleState.canPass_iff]
  simp

/-- Claim C7 (amended).  Provided the recorded `lastPass` timestamp, when
set, is nonzero (the implementation's emptiness check treats a zero
timestamp as unset), `tryPass` returns true iff the throttle is unlocked
and (`lastPass` is unset, or `now - lastPass` is at least the window
`timeoutSeconds`); on success it records `lastPass = now`, on failure it
leaves the state unchanged; a locked throttle never passes regardless of
elapsed time; and `unlock` restores normal behaviour without touching
`lastPass`. -/
theorem C7_tryPass_contract (s : ThrottleState) (now : ℚ)
    (h : s.lastPass ≠ some 0) :
    (((s.tryPass now).1 = true) ↔
      (s.locked = false ∧ (s.lastPass = none ∨
        ∃ t : ℚ, s.lastPass = some t ∧ s.timeoutSeconds ≤ now - t))) ∧
    ((s.tryPass now).1 = true → (s.tryPass now).2 = { s with lastPass := some now }) ∧
    ((s.tryPass now).1 = false → (s.tryPass now).2 = s) ∧
    (((s.lock).tryPass now).1 = false) ∧
    (s.lock.unlock = { s with locked := false }) := by
  refine ⟨?_, ?_, ?_, ?_, rfl⟩
  · rw [ThrottleState.tryPass_fst, ThrottleState.canPass_iff]
    constructor
    · rintro ⟨hl, hc⟩
      refine ⟨hl, ?_⟩
      rcases hc with hc | hc | hc
      · exact Or.inl hc
      · exact absurd hc h
      · exact Or.inr hc
    · rintro ⟨hl, hc⟩
      refine ⟨hl, ?_⟩
      rcases hc with hc | hc
      · exact Or.inl hc
      · exact Or.inr (Or.inr hc)
  · intro hpass
    rw [ThrottleState.tryPass_fst] at hpass
    rw [ThrottleState.tryPass_snd, if_pos hpass]
  · intro hfail
    rw [ThrottleState.tryPass_fst] at hfail
    rw [ThrottleState.tryPass_snd, if_neg (by simp [hfail])]
  · rw [ThrottleState.tryPass_fst]
    cases hcp : (s.lock).canPass now with
    | false => rfl
    | true =>
      obtain ⟨hl, -⟩ := (ThrottleState.canPass_iff (s.lock) now).mp hcp
      cases hl

/-! ## Debounce (`rate-limit.ts` lines 137–216)

`Debounce` is built on `setTimeout`: `schedule(cb, ...args)` performs
`clear(); scheduled = () => task.spawn(() => cb(...args));
scheduler = setTimeout(() => this.flush(), this.timeoutMs)`.

The model keeps the class fields plus the system-level facts the claims
need: `scheduler` holds the start time and the suspension length
(`msToS(timeoutMs)` seconds — the duration `setTimeout` hands to the
clock) of the one **live** (not destroyed, not yet fired) underlying
timeout, and `fires` is the log of callback invocations `(time, arg)`.
Destroyed timeouts are dropped from the state: by the timeout model
(`TimeoutState.wake` with `destroyed = true`) their wake never calls
`flush`, so they can never add a fire. -/

/-- Debounce fields plus the live underlying timeout and the invocation log. -/
structure DebSys (α : Type) where
  timeoutMs : ℚ
  scheduled : Option α
  scheduler : Option (ℚ × ℚ)
  fires : List (ℚ × α)
deriving DecidableEq, Repr

namespace DebSys

/-- `new Debounce(timeoutMs)` (line 147). -/
def init (timeoutMs : ℚ) : DebSys α :=
  { timeoutMs := timeoutMs, scheduled := none, scheduler := none, fires := [] }

/-- `clear()` (lines 152–157): destroy the live timeout (if any) and drop
the pending callback. -/
def clear (d : DebSys α) : DebSys α :=
  { d with scheduler := none, scheduled := none }

/-- `flush()` (lines 163–168) invoked at clock time `now`: a no-op when
nothing is pending; otherwise destroy the timeout, invoke the pending
callback, and clear. -/
def flush (d : DebSys α) (now : ℚ) : DebSys α :=
  match d.scheduled with
  | none => d
  | some arg =>
      { d with scheduler := none, scheduled := none,
               fires := d.fires ++ [(now, arg)] }

/-- `schedule(cb, ...args)` (lines 178–182) called at clock time `now`:
`clear()`, capture the callback, start a fresh `setTimeout(() => flush(),
timeoutMs)` whose suspension is `msToS(timeoutMs)` seconds. -/
def schedule (d : DebSys α) (now : ℚ) (arg : α) : DebSys α :=
  let d' := d.clear
  { d' with scheduled := some arg,
            scheduler := some (now, msToS d.timeoutMs) }

/-- The live underlying timeout elapses: its wake block (with
`destroyed = false`) invokes `() => this.flush()` at time
`start + wait`. -/
def fire (d : DebSys α) : DebSys α :=
  match d.scheduler with
  | none => d
  | some sw => d.flush (sw.1 + sw.2)

end DebSys

/-- Claim C4.  Two `schedule` calls within the delay window produce
exactly one invocation, with the second argument — the first pending
callback is destroyed before its timeout elapses and never runs — but the
single fire happens `msToS(d) = 1000·d` **seconds** (i.e. `10⁶·d` ms)
after the second call, not `d` milliseconds as claimed: `Debounce` drives
its timer through `setTimeout`, which (lines 64–65/143 of `interval.ts`)
hands `msToS(timeoutMs)` to the clock, multiplying by 1000 instead of
dividing.  The claimed firing offset `d/1000` seconds differs from the
actual `1000·d` seconds for every positive `d`. -/
theorem C4_debounce_single_trailing_fire {α : Type} (d t0 t1 : ℚ) (a b : α)
    (hd : 0 < d) (_h01 : t0 ≤ t1) (hlt : 1000 * (t1 - t0) < d) :
    (t1 < t0 + msToS d) ∧
    ((((DebSys.init d).schedule t0 a).schedule t1 b).fire.fires
        = [(t1 + msToS d, b)]) ∧
    (msToS d = 1000 * d) ∧
    (1000 * d ≠ d / 1000) := by
  have hms : msToS d = 1000 * d := msToS_eq d
  refine ⟨?_, ?_, hms, ?_⟩
  · rw [hms]
    linarith
  · simp [DebSys.init, DebSys.schedule, DebSys.clear, DebSys.fire, DebSys.flush]
  · intro heq
    linarith

/-- Witness for C4: delay 1000 ms, calls at times 0 and ½ s (500 ms
apart, inside the window). -/
theorem C4_debounce_single_trailing_fire_witness :
    ((1:ℚ)/2 < 0 + msToS 1000) ∧
    ((((DebSys.init (α := ℕ) 1000).schedule 0 7).schedule (1/2) 9).fire.fires
        = [((1:ℚ)/2 + msToS 1000, 9)]) ∧
    (msToS 1000 = 1000 * 1000) ∧
    ((1000 : ℚ) * 1000 ≠ 1000 / 1000) :=
  C4_debounce_single_trailing_fire 1000 0 (1/2) 7 9 (by norm_num)
    (by norm_num) (by norm_num)

/-- Witness for C7 (amended): a fresh 10-second-window throttle with no
recorded pass, at time 5, passes and records the pass. -/
theorem C7_tryPass_contract_witness :
    ((((⟨10, none, false⟩ : ThrottleState).tryPass 5).1 = true) ↔
      ((⟨10, none, false⟩ : ThrottleState).locked = false ∧
        ((⟨10, none, false⟩ : ThrottleState).lastPass = none ∨
          ∃ t : ℚ, (⟨10, none, false⟩ : ThrottleState).lastPass = some t ∧
            (⟨10, none, false⟩ : ThrottleState).timeoutSeconds ≤ 5 - t))) ∧
    (((⟨10, none, false⟩ : ThrottleState).tryPass 5).1 = true →
      ((⟨10, none, false⟩ : ThrottleState).tryPass 5).2
        = { (⟨10, none, false⟩ : ThrottleState) with lastPass := some 5 }) ∧
    (((⟨10, none, false⟩ : ThrottleState).tryPass 5).1 = false →
      ((⟨10, none, false⟩ : ThrottleState).tryPass 5).2 = ⟨10, none, false⟩) ∧
    ((((⟨10, none, false⟩ : ThrottleState).lock).tryPass 5).1 = false) ∧
    ((⟨10, none, false⟩ : ThrottleState).lock.unlock
      = { (⟨10, none, false⟩ : ThrottleState) with locked := false }) :=
  C7_tryPass_contract ⟨10, none, false⟩ 5 (by simp)

/-! ## Time-unit deconstruction (`disect`, unit module variant lines 26–77)

`sortUnits` delegates to the host's in-place `table.sort` with the strict
comparator `a.seconds < b.seconds` (ascending) or `b.seconds < a.seconds`
(descending); the host sort is unspecified up to ties, so it is modelled
as an insertion sort driven by the same comparator.  `math.floor` is
modelled by `Int.floor` on `ℚ`. -/

/-- Sort direction argument of `sortUnits` (`'asc' | 'desc'`). -/
inductive SortDir where
  | asc
  | desc
deriving DecidableEq, Repr

/-- The strict comparator handed to `table.sort` by `sortUnits`:
`cmp(a, b)` true means `a` must come before `b`. -/
def unitBefore (dir : SortDir) (a b : TimeUnit) : Bool :=
  match dir with
  | .asc => decide (a.seconds < b.seconds)
  | .desc => decide (b.seconds < a.seconds)

/-- Insert into a list sorted by the strict comparator `before`. -/
def insertUnit (before : TimeUnit → TimeUnit → Bool) (x : TimeUnit) :
    List TimeUnit → List TimeUnit
  | [] => [x]
  | y :: ys => if before x y then x :: y :: ys else y :: insertUnit before x ys

/-- `sortUnits(units, dir)` (lines 26–28), modelled as insertion sort by
the comparator `table.sort` is given. -/
def sortUnits (units : List TimeUnit) (dir : SortDir) : List TimeUnit :=
  match units with
  | [] => []
  | x :: xs => insertUnit (unitBefore dir) x (sortUnits xs dir)

/-- The `for (const unit of targetUnits)` loop of `disect` (lines 62–70):
returns the final `remainingSeconds` and the `res` entries pushed, in
order.  Each unit consumes `math.floor(remainingSeconds / unit.seconds)`
of the remaining seconds. -/
def disectLoop : List TimeUnit → ℚ → ℚ × List (TimeUnit × ℚ)
  | [], rem => (rem, [])
  | u :: us, rem =>
      let amt : ℤ := ⌊rem / u.seconds⌋
      let next := disectLoop us (rem - amt * u.seconds)
      (next.1, (u, (amt : ℚ)) :: next.2)

/-- The epilogue of `disect` (lines 72–74): add the remaining seconds to
the first `SECOND` entry of `res`, or push a `SECOND` entry if none
exists.  (`find` compares the unit by identity; the library's units are
pairwise structurally distinct, so structural equality coincides.) -/
def addToSecond : List (TimeUnit × ℚ) → ℚ → List (TimeUnit × ℚ)
  | [], rem => [(Unit.SECOND, rem)]
  | e :: es, rem =>
      if e.1 = Unit.SECOND then (e.1, e.2 + rem) :: es
      else e :: addToSecond es rem

/-- `disect(seconds, ...units)` (lines 58–77). -/
def disect (seconds : ℚ) (units : List TimeUnit) : List (TimeUnit × ℚ) :=
  let targetUnits := sortUnits units .desc
  let looped := disectLoop targetUnits seconds
  addToSecond looped.2 looped.1

/-- Total seconds represented by a `disect` result: the sum over the
entries of `amount * unit.seconds`. -/
def sumSeconds (res : List (TimeUnit × ℚ)) : ℚ :=
  (res.map (fun e => e.2 * e.1.seconds)).sum

theorem disectLoop_sum (us : List TimeUnit) (rem : ℚ) :
    (disectLoop us rem).1 + sumSeconds (disectLoop us rem).2 = rem := by
  induction us generalizing rem with
  | nil => simp [disectLoop, sumSeconds]
  | cons u us ih =>
    simp only [disectLoop, sumSeconds, List.map_cons, List.sum_cons]
    have := ih (rem - (⌊rem / u.seconds⌋ : ℚ) * u.seconds)
    unfold sumSeconds at this
    linarith

theorem addToSecond_sum (res : List (TimeUnit × ℚ)) (rem : ℚ) :
    sumSeconds (addToSecond res rem) = sumSeconds res + rem := by
  induction res with
  | nil => simp [addToSecond, sumSeconds, Unit.SECOND]
  | cons e es ih =>
    by_cases he : e.1 = Unit.SECOND
    · simp only [addToSecond, if_pos he, sumSeconds, List.map_cons, List.sum_cons]
      have hsec : Unit.SECOND.seconds = 1 := rfl
      rw [he, hsec]
      ring
    · simp only [addToSecond, if_neg he, sumSeconds, List.map_cons, List.sum_cons]
      unfold sumSeconds at ih
      rw [ih]
      ring

/-- Claim C8.  `disect(125, SECOND, MINUTE)` returns exactly
`[{MINUTE, 2}, {SECOND, 5}]`: units sorted in descending duration, each
consuming the floor of the remaining seconds over its duration, remainder
passed down. -/
theorem C8_disect_125 :
    disect 125 [Unit.SECOND, Unit.MINUTE]
      = [(Unit.MINUTE, 2), (Unit.SECOND, 5)] := by
  have h1 : ⌊(125:ℚ) / (60:ℚ)⌋ = 2 := by norm_num
  have h2 : ⌊(5:ℚ) / (1:ℚ)⌋ = 5 := by norm_num
  simp only [disect, sortUnits, insertUnit, unitBefore, Unit.SECOND, Unit.MINUTE]
  norm_num [disectLoop, addToSecond, Unit.SECOND, Unit.MINUTE]

/-- Claim C10.  For every seconds value and every list of (positive-
duration) units — sorted or not, empty or not, containing `SECOND` or not
— the returned decomposition conserves the total exactly: the greedy
floor divisions leave a remainder that is added to the (first) `SECOND`
entry, or appended as a fresh `SECOND` entry, and `SECOND.seconds = 1`.
(Positivity of the unit durations matches every unit the library defines;
it keeps the rational model inside the range where the host's float
division is defined.) -/
theorem C10_disect_conserves_total (s : ℚ) (units : List TimeUnit)
    (_hpos : ∀ u ∈ units, 0 < u.seconds) :
    sumSeconds (disect s units) = s := by
  unfold disect
  rw [addToSecond_sum]
  have := disectLoop_sum (sortUnits units .desc) s
  linarith

/-- Witness for C10: `disect (251/2) [SECOND, MINUTE]` sums back to
`251/2` (125.5 s = 2 min + 5.5 s). -/
theorem C10_disect_conserves_total_witness :
    sumSeconds (disect (251/2) [Unit.SECOND, Unit.MINUTE]) = 251/2 :=
  C10_disect_conserves_total (251/2) [Unit.SECOND, Unit.MINUTE] (by
    intro u hu
    simp [Unit.SECOND, Unit.MINUTE] at hu
    rcases hu with h | h <;> rw [h] <;> norm_num)

/-! ## Benchmark registry (`start` / `stop` by id)

`const runningBenchmarks = new Map<string, number>()` plus the `start`
and `stop` functions of the benchmarking harness.  The map is modelled as
an association list with unique keys; `Time.cpu()` is passed explicitly
as `now`.  A thrown string is modelled as `Except.error`; a throw aborts
the function before any mutation, so an error leaves the registry as it
was. -/

/-- The `runningBenchmarks` map: benchmark id to start timestamp. -/
abbrev Registry : Type := List (String × ℚ)

namespace Registry

/-- `runningBenchmarks.has(id)`. -/
def hasId (reg : Registry) (id : String) : Bool :=
  (reg : List (String × ℚ)).any (fun e => e.1 == id)

/-- `runningBenchmarks.get(id)`. -/
def get (reg : Registry) (id : String) : Option ℚ :=
  ((reg : List (String × ℚ)).find? (fun e => e.1 == id)).map (fun e => e.2)

/-- `runningBenchmarks.set(id, v)` in the only context it is called:
after a `has` check ruled the key out. -/
def setNew (reg : Registry) (id : String) (v : ℚ) : Registry :=
  (reg : List (String × ℚ)) ++ [(id, v)]

/-- `runningBenchmarks.delete(id)`. -/
def del (reg : Registry) (id : String) : Registry :=
  (reg : List (String × ℚ)).filter (fun e => !(e.1 == id))

end Registry

/-- The constructor arguments of `BenchmarkResult` (`part_002` lines
104–116). -/
structure BenchmarkResult where
  totalSeconds : ℚ
  runCount : ℕ
  opName : Option String
deriving DecidableEq, Repr

/-- `start(id)` (lines 330–333): throw if a benchmark with this id is
running, else record `Time.cpu()` under the id. -/
def benchStart (reg : Registry) (id : String) (now : ℚ) :
    Except String Registry :=
  if reg.hasId id then
    .error ("Benchmark with id(" ++ id ++ ") already started.")
  else
    .ok (reg.setNew id now)

/-- `stop(id)` (lines 347–355): throw if no benchmark with this id is
running, else delete it and return the result of the elapsed time
(`Time.diff(start, fin) = fin - start`, one run, named by the id). -/
def benchStop (reg : Registry) (id : String) (now : ℚ) :
    Except String (Registry × BenchmarkResult) :=
  if reg.hasId id then
    let st := (reg.get id).getD 0
    .ok (reg.del id, { totalSeconds := now - st, runCount := 1, opName := some id })
  else
    .error ("Benchmark with id(" ++ id ++ ") not started.")

/-- Registry as seen by the caller after `start(id)` — unchanged when the
call threw. -/
def benchStartState (reg : Registry) (id : String) (now : ℚ) : Registry :=
  match benchStart reg id now with
  | .error _ => reg
  | .ok r => r

/-- Registry as seen by the caller after `stop(id)` — unchanged when the
call threw. -/
def benchStopState (reg : Registry) (id : String) (now : ℚ) : Registry :=
  match benchStop reg id now with
  | .error _ => reg
  | .ok r => r.1

/-- Claim C9.  `start(id)` with the id already running throws immediately,
and `stop(id)` with the id not running throws immediately; in both error
cases the registry of running benchmarks is left exactly as it was (the
throw precedes any mutation). -/
theorem C9_benchmark_double_start_and_orphan_stop (reg : Registry)
    (id : String) (now : ℚ) :
    (reg.hasId id = true →
      benchStart reg id now
          = .error ("Benchmark with id(" ++ id ++ ") already started.") ∧
      benchStartState reg id now = reg) ∧
    (reg.hasId id = false →
      benchStop reg id now
          = .error ("Benchmark with id(" ++ id ++ ") not started.") ∧
      benchStopState reg id now = reg) := by
  constructor
  · intro h
    have he : benchStart reg id now
        = .error ("Benchmark with id(" ++ id ++ ") already started.") := by
      unfold benchStart
      rw [if_pos h]
    exact ⟨he, by unfold benchStartState; rw [he]⟩
  · intro h
    have he : benchStop reg id now
        = .error ("Benchmark with id(" ++ id ++ ") not started.") := by
      unfold benchStop
      rw [if_neg (by simp [h])]
    exact ⟨he, by unfold benchStopState; rw [he]⟩

/-- Witness for C9: registry containing only a running benchmark `"x"`;
starting `"x"` again throws and changes nothing, stopping `"y"` throws
and changes nothing. -/
theorem C9_benchmark_double_start_and_orphan_stop_witness :
    (benchStart [("x", 1)] "x" 2
        = .error ("Benchmark with id(" ++ "x" ++ ") already started.") ∧
      benchStartState [("x", 1)] "x" 2 = [("x", 1)]) ∧
    (benchStop [("x", 1)] "y" 2
        = .error ("Benchmark with id(" ++ "y" ++ ") not started.") ∧
      benchStopState [("x", 1)] "y" 2 = [("x", 1)]) :=
  ⟨(C9_benchmark_double_start_and_orphan_stop [("x", 1)] "x" 2).1 rfl,
   (C9_benchmark_double_start_and_orphan_stop [("x", 1)] "y" 2).2 rfl⟩

end Prim
